import Mathlib

/-!
Verification of the get_tcia batch downloader (src/get_tcia.py).

The Python source is shallowly embedded: external effects (filesystem,
network, sleeping) are represented as explicit event traces, and the
outcomes of the remote service are supplied as an oracle function.

Embedding conventions:
- a Python string is a `List Char`; `s2l` converts a Lean string literal;
- `pyStrip` models `str.strip()` (ASCII whitespace; the Unicode whitespace
  code points accepted by Python do not occur in any input considered here);
- `pyPartitionEq` models `str.partition("=")`: the component before the
  first `=`, a flag telling whether `=` occurred, and the remainder;
- `pyInt?` models `int(s)` on decimal literals with optional sign and
  surrounding whitespace (returning `none` where Python raises ValueError;
  underscore digit grouping is not modelled, no input here uses it);
- a Python dict is an insertion-ordered association list (`PyDict`):
  `dictSet` overwrites an existing binding in place, `dictAppend` models
  `d[k].append(x)`;
- `download_series` takes the initial existence of the destination file and
  an oracle `outcome : Nat → FetchOutcome` giving, per attempt, what the
  remote interaction does; it returns the event trace, whether the
  destination file exists afterwards, and the returned value;
- the while loop of `download_series` runs while `retry_count ≤ max_retries`
  with `retry_count` starting at 0 and incremented per caught exception, so
  it is modelled by structural recursion on the remaining iteration count
  `(max_retries - retry_count + 1).toNat`, which is `(max_retries + 1).toNat`
  at entry and decrements exactly when `retry_count` increments;
- `download_from_manifest` takes whether `manifest_path.is_file()` holds and
  the manifest lines; its trace records the mkdir, the manifest copy and
  each submitted job; `run_from_manifest` additionally executes the
  submitted jobs and returns the list of files present in the destination
  folder after the run (the folder starts empty apart from what the run
  itself creates).
-/

/-- ASCII whitespace characters stripped by Python str.strip(). -/
def pyIsSpace (c : Char) : Bool :=
  c = ' ' || c = '\t' || c = '\n' || c = '\r' || c = '\x0b' || c = '\x0c'

/-- Model of Python str.strip(): drop whitespace from both ends. -/
def pyStrip (s : List Char) : List Char :=
  ((s.dropWhile pyIsSpace).reverse.dropWhile pyIsSpace).reverse

/-- Convert a Lean string literal to the character-list model of Python strings. -/
def s2l (s : String) : List Char := s.data

/-- Model of line.partition("="): characters before the first `=`, whether a
`=` occurs (this also models the test `"=" in line`), and the remainder. -/
def pyPartitionEq : List Char → List Char × Bool × List Char
  | [] => ([], false, [])
  | c :: cs =>
    if c = '=' then ([], true, cs)
    else (c :: (pyPartitionEq cs).1, (pyPartitionEq cs).2.1, (pyPartitionEq cs).2.2)

/-- Decimal digit value of a character, if it is a digit. -/
def digitVal (c : Char) : Option Nat :=
  if '0' ≤ c ∧ c ≤ '9' then some (c.toNat - '0'.toNat) else none

/-- Accumulate the value of a digit string; `none` on a non-digit. -/
def digitsAux (acc : Nat) : List Char → Option Nat
  | [] => some acc
  | c :: cs =>
    match digitVal c with
    | some d => digitsAux (acc * 10 + d) cs
    | none => none

/-- Model of Python int(s) on a string: optional surrounding whitespace,
optional sign, then a nonempty digit run; `none` where Python raises
ValueError. -/
def pyInt? (s : List Char) : Option Int :=
  match pyStrip s with
  | [] => none
  | '+' :: rest => if rest = [] then none else (digitsAux 0 rest).map Int.ofNat
  | '-' :: rest => if rest = [] then none else (digitsAux 0 rest).map (fun n => -(n : Int))
  | t => (digitsAux 0 t).map Int.ofNat

/-- A Python dict from string keys to lists of strings, as an
insertion-ordered association list. -/
abbrev PyDict := List (List Char × List (List Char))

/-- Model of d[k] lookup (and of d.get(k)): first binding with the key. -/
def dictGet (d : PyDict) (k : List Char) : Option (List (List Char)) :=
  match d with
  | [] => none
  | (k₂, v) :: rest => if k₂ = k then some v else dictGet rest k

/-- Model of d[k] = v: overwrite an existing binding in place, else append;
this is the insertion-order behaviour of a Python dict. -/
def dictSet (d : PyDict) (k : List Char) (v : List (List Char)) : PyDict :=
  match d with
  | [] => [(k, v)]
  | (k₂, w) :: rest => if k₂ = k then (k₂, v) :: rest else (k₂, w) :: dictSet rest k v

/-- Model of d[k].append(x): extend the binding for k (parse_manifest only
calls this with a key it has already registered). -/
def dictAppend (d : PyDict) (k : List Char) (x : List Char) : PyDict :=
  d.map (fun p => if p.1 = k then (p.1, p.2 ++ [x]) else p)

/-- Parser state of parse_manifest: the dict built so far and current_key,
which is `None` initially (modelled as `none`). -/
structure ParseState where
  data : PyDict
  currentKey : Option (List Char)

/-- Initial parser state: manifest_data = {}, current_key = None. -/
def initState : ParseState := { data := [], currentKey := none }

/-- Python truthiness of current_key: false for None and for the empty
string, true for any nonempty string. -/
def keyTruthy : Option (List Char) → Bool
  | none => false
  | some k => !k.isEmpty

/-- Key registered by a manifest line that contains `=`:
current_key.strip() after the partition. -/
def registeredKey (raw : List Char) : List Char :=
  pyStrip (pyPartitionEq (pyStrip raw)).1

/-- Value list registered by a manifest line that contains `=`:
the code runs `[value.strip()] if value else []`, testing the untrimmed
remainder. -/
def registeredValue (raw : List Char) : List (List Char) :=
  if (pyPartitionEq (pyStrip raw)).2.2 ≠ [] then
    [pyStrip (pyPartitionEq (pyStrip raw)).2.2]
  else []

/-- One iteration of the parse_manifest loop body on a raw line. -/
def parseLine (st : ParseState) (raw : List Char) : ParseState :=
  if (pyPartitionEq (pyStrip raw)).2.1 then
    { data := dictSet st.data (registeredKey raw) (registeredValue raw),
      currentKey := some (registeredKey raw) }
  else if keyTruthy st.currentKey ∧ pyStrip raw ≠ [] then
    { data := dictAppend st.data (st.currentKey.getD []) (pyStrip raw),
      currentKey := st.currentKey }
  else st

/-- Model of parse_manifest: fold the loop body over the file lines and
return the built dict. -/
def parse_manifest (lines : List (List Char)) : PyDict :=
  (List.foldl parseLine initState lines).data

/-- The proposition that a manifest line registers the key k: the stripped
line contains `=` and the trimmed part before the first `=` is k. -/
def registersKey (raw k : List Char) : Prop :=
  (pyPartitionEq (pyStrip raw)).2.1 = true ∧ registeredKey raw = k

/-- Value list prescribed by the accumulation rule as the claim states it:
a one-element list if the trimmed remainder is nonempty, else empty. -/
def specRegisteredValue (raw : List Char) : List (List Char) :=
  if pyStrip (pyPartitionEq (pyStrip raw)).2.2 ≠ [] then
    [pyStrip (pyPartitionEq (pyStrip raw)).2.2]
  else []

/-- One line of the accumulation rule exactly as the claim states it: any
registered key (even one that trims to the empty string) is the active key
for subsequent value lines. -/
def specRuleLine (st : ParseState) (raw : List Char) : ParseState :=
  if (pyPartitionEq (pyStrip raw)).2.1 then
    { data := dictSet st.data (registeredKey raw) (specRegisteredValue raw),
      currentKey := some (registeredKey raw) }
  else if st.currentKey.isSome ∧ pyStrip raw ≠ [] then
    { data := dictAppend st.data (st.currentKey.getD []) (pyStrip raw),
      currentKey := st.currentKey }
  else st

/-- The accumulation rule of the claim, applied to a whole manifest. -/
def parse_manifest_specRule (lines : List (List Char)) : PyDict :=
  (List.foldl specRuleLine initState lines).data

/-- One line of the amended accumulation rule: as the claim states it,
except that a registered key that trims to the empty string counts as no
active key for subsequent value lines. -/
def specRuleAmendedLine (st : ParseState) (raw : List Char) : ParseState :=
  if (pyPartitionEq (pyStrip raw)).2.1 then
    { data := dictSet st.data (registeredKey raw) (specRegisteredValue raw),
      currentKey := some (registeredKey raw) }
  else if keyTruthy st.currentKey ∧ pyStrip raw ≠ [] then
    { data := dictAppend st.data (st.currentKey.getD []) (pyStrip raw),
      currentKey := st.currentKey }
  else st

/-- The amended accumulation rule, applied to a whole manifest. -/
def parse_manifest_specRuleAmended (lines : List (List Char)) : PyDict :=
  (List.foldl specRuleAmendedLine initState lines).data

/-- Python exception kinds that the embedded code can raise. -/
inductive PyError
  | valueErrorBadPath
  | typeError
  | indexError
  | valueErrorBadInt
  | valueErrorBadType
  | requestError
deriving DecidableEq

/-- What the remote interaction of one download attempt does:
`netError` models requests.get or raise_for_status raising;
`badType` models a successful response whose metadata type tag is not
exactly "ZIP", so the code raises ValueError before opening the file;
`zipOk` models a ZIP response whose body is streamed to the file. -/
inductive FetchOutcome
  | netError
  | badType
  | zipOk
deriving DecidableEq

/-- Externally visible effects of download_series. -/
inductive FetchEvent
  | checkExists
  | httpGet (sid : List Char)
  | writeFile (dest : List Char)
  | sleepSecond
deriving DecidableEq

/-- How one try-block execution ends: a return, or an exception caught by
the except clause. -/
inductive AttemptResult
  | returned
  | raised (e : PyError)
deriving DecidableEq

/-- Result of download_series: a returned value, or an exception escaping
to the caller. -/
inductive DownloadResult
  | value (p : List Char)
  | uncaught (e : PyError)
deriving DecidableEq

/-- One execution of the try block of download_series: events, whether the
destination file exists afterwards, and how the block ended. -/
def attemptOnce (fileExists : Bool) (sid dest : List Char) (o : FetchOutcome) :
    List FetchEvent × Bool × AttemptResult :=
  if fileExists then
    ([FetchEvent.checkExists], true, AttemptResult.returned)
  else
    match o with
    | FetchOutcome.netError =>
        ([FetchEvent.checkExists, FetchEvent.httpGet sid], false,
          AttemptResult.raised PyError.requestError)
    | FetchOutcome.badType =>
        ([FetchEvent.checkExists, FetchEvent.httpGet sid], false,
          AttemptResult.raised PyError.valueErrorBadType)
    | FetchOutcome.zipOk =>
        ([FetchEvent.checkExists, FetchEvent.httpGet sid, FetchEvent.writeFile dest], true,
          AttemptResult.returned)

/-- The while loop of download_series. The last argument is the remaining
iteration budget `(max_retries - retry_count + 1).toNat`; the attempt index
is the current retry_count. On a caught exception the code increments
retry_count and breaks without sleeping when retry_count exceeds
max_retries (remaining budget hits 0), else sleeps one second and loops. -/
def downloadLoop (sid dest : List Char) (outcome : Nat → FetchOutcome) :
    Bool → Nat → Nat → List FetchEvent × Bool × DownloadResult
  | fileExists, _, 0 => ([], fileExists, DownloadResult.value dest)
  | fileExists, attemptIdx, r + 1 =>
    match attemptOnce fileExists sid dest (outcome attemptIdx) with
    | (evs, fe₂, AttemptResult.returned) => (evs, fe₂, DownloadResult.value dest)
    | (evs, fe₂, AttemptResult.raised _) =>
      if r = 0 then (evs, fe₂, DownloadResult.value dest)
      else
        ((evs ++ FetchEvent.sleepSecond ::
            (downloadLoop sid dest outcome fe₂ (attemptIdx + 1) r).1,
          (downloadLoop sid dest outcome fe₂ (attemptIdx + 1) r).2))

/-- Model of download_series: run the retry loop starting at retry_count 0.
Returns the event trace, whether the destination file exists at the end,
and the value returned to the caller. -/
def download_series (sid dest : List Char) (fileExists : Bool)
    (outcome : Nat → FetchOutcome) (max_retries : Int) :
    List FetchEvent × Bool × DownloadResult :=
  downloadLoop sid dest outcome fileExists 0 (max_retries + 1).toNat

/-- Predicate picking the existence-check events of a trace; their count is
the number of try-block entries, one per attempt. -/
def isCheckExists : FetchEvent → Bool
  | FetchEvent.checkExists => true
  | _ => false

/-- Predicate picking the one-second sleeps of a trace. -/
def isSleepEvent : FetchEvent → Bool
  | FetchEvent.sleepSecond => true
  | _ => false

/-- Predicate picking the destination-file writes of a trace. -/
def isWriteEvent : FetchEvent → Bool
  | FetchEvent.writeFile _ => true
  | _ => false

/-- Externally visible effects of download_from_manifest. -/
inductive OrchEvent
  | mkdirDest
  | copyManifest
  | submitJob (sid : List Char) (destFile : List Char) (maxRetries : Int)
deriving DecidableEq

/-- Destination folder path: pathlib.Path(output_base_path) / manifest name. -/
def destFolderPath (outputBase manifestName : List Char) : List Char :=
  outputBase ++ '/' :: manifestName

/-- Per-job destination path: destination_folder / (series_id + ".zip"). -/
def jobDestPath (destFolder sid : List Char) : List Char :=
  destFolder ++ '/' :: (sid ++ s2l ".zip")

/-- Path of the manifest copy placed by shutil.copy into the destination
folder. -/
def manifestCopyPath (destFolder manifestName : List Char) : List Char :=
  destFolder ++ '/' :: manifestName

/-- Model of manifest_data.get("ListOfSeriesToDownload", []). -/
def listOfSeries (data : PyDict) : List (List Char) :=
  (dictGet data (s2l "ListOfSeriesToDownload")).getD []

/-- Model of int(manifest_data.get("noOfrRetry", 0)[0]). When the key is
absent, .get returns the int 0 and the subscript 0[0] raises TypeError;
when the value list is empty, [][0] raises IndexError; when the first
value is not an integer literal, int raises ValueError. -/
def noOfRetriesValue (data : PyDict) : Except PyError Int :=
  match dictGet data (s2l "noOfrRetry") with
  | none => Except.error PyError.typeError
  | some [] => Except.error PyError.indexError
  | some (v :: _) =>
    match pyInt? v with
    | none => Except.error PyError.valueErrorBadInt
    | some n => Except.ok n

/-- Model of download_from_manifest up to job submission: the mkdir of the
destination folder runs before the is_file check, so the mkdir event is
emitted even on the invalid-path error. Returns the orchestration trace
and the exception escaping the call, if any. -/
def download_from_manifest (manifestIsFile : Bool) (outputBase manifestName : List Char)
    (lines : List (List Char)) : List OrchEvent × Option PyError :=
  if manifestIsFile then
    match noOfRetriesValue (parse_manifest lines) with
    | Except.error e => ([OrchEvent.mkdirDest, OrchEvent.copyManifest], some e)
    | Except.ok n =>
      ([OrchEvent.mkdirDest, OrchEvent.copyManifest] ++
        (listOfSeries (parse_manifest lines)).map
          (fun sid => OrchEvent.submitJob sid
            (jobDestPath (destFolderPath outputBase manifestName) sid) n), none)
  else ([OrchEvent.mkdirDest], some PyError.valueErrorBadPath)

/-- Execute the submitted jobs over the destination folder, threading the
set of files present. The workers write pairwise distinct files, so the
pool execution is modelled sequentially. -/
def runJobs (outcomes : List Char → Nat → FetchOutcome) (n : Int) :
    List (List Char) → List (List Char × List Char) → List (List Char)
  | existing, [] => existing
  | existing, (sid, dest) :: rest =>
    runJobs outcomes n
      (if (download_series sid dest (decide (dest ∈ existing)) (outcomes sid) n).2.1 then
        (if dest ∈ existing then existing else existing ++ [dest])
      else existing) rest

/-- Model of a whole download_from_manifest run including job execution:
the files present in the destination folder afterwards (the folder starts
empty) and the exception escaping the call, if any. -/
def run_from_manifest (manifestIsFile : Bool) (outputBase manifestName : List Char)
    (lines : List (List Char)) (outcomes : List Char → Nat → FetchOutcome) :
    List (List Char) × Option PyError :=
  if manifestIsFile then
    match noOfRetriesValue (parse_manifest lines) with
    | Except.error e =>
      ([manifestCopyPath (destFolderPath outputBase manifestName) manifestName], some e)
    | Except.ok n =>
      (runJobs outcomes n
        [manifestCopyPath (destFolderPath outputBase manifestName) manifestName]
        ((listOfSeries (parse_manifest lines)).map
          (fun sid => (sid, jobDestPath (destFolderPath outputBase manifestName) sid))),
        none)
  else ([], some PyError.valueErrorBadPath)

/-! Helper lemmas about stripping and partitioning. -/

/-- The head of a dropWhile result fails the predicate. -/
theorem dropWhile_head_false (p : Char → Bool) :
    ∀ (l : List Char) (c : Char) (t : List Char), l.dropWhile p = c :: t → p c = false := by
  intro l
  induction l with
  | nil => intro c t h; cases h
  | cons a as ih =>
    intro c t h
    rw [List.dropWhile_cons] at h
    by_cases hp : p a = true
    · rw [if_pos hp] at h
      exact ih c t h
    · rw [if_neg hp] at h
      cases h
      exact Bool.eq_false_iff.mpr hp

/-- A string whose strip is empty consists of whitespace only. -/
theorem pyStrip_eq_nil_all_space (x : List Char) (hx : pyStrip x = []) :
    ∀ a ∈ x, pyIsSpace a = true := by
  unfold pyStrip at hx
  rw [List.reverse_eq_nil_iff] at hx
  have h₂ : ∀ a ∈ (List.dropWhile pyIsSpace x).reverse, pyIsSpace a = true :=
    List.dropWhile_eq_nil_iff.mp hx
  intro a ha
  have hx2 : List.takeWhile pyIsSpace x ++ List.dropWhile pyIsSpace x = x :=
    List.takeWhile_append_dropWhile pyIsSpace x
  rcases List.mem_append.mp (by rw [hx2]; exact ha) with h | h
  · exact List.mem_takeWhile_imp h
  · exact h₂ a (List.mem_reverse.mpr h)

/-- The last character of a stripped string is not whitespace. -/
theorem pyStrip_getLast_not_space (raw : List Char) (c : Char)
    (h : (pyStrip raw).getLast? = some c) : pyIsSpace c = false := by
  unfold pyStrip at h
  rw [List.getLast?_reverse] at h
  cases hm : List.dropWhile pyIsSpace (List.dropWhile pyIsSpace raw).reverse with
  | nil => rw [hm] at h; cases h
  | cons c₂ t =>
    rw [hm] at h
    have hc : c₂ = c := by
      simpa using h
    exact hc ▸ dropWhile_head_false pyIsSpace _ c₂ t hm

/-- A string ending in a non-whitespace character has nonempty strip. -/
theorem strip_concat_ne_nil (u : List Char) (c : Char) (hc : pyIsSpace c = false) :
    pyStrip (u ++ [c]) ≠ [] := by
  intro hnil
  have h := pyStrip_eq_nil_all_space (u ++ [c]) hnil c (by simp)
  rw [h] at hc
  cases hc

/-- When a line contains `=`, partition reassembles the line. -/
theorem pyPartitionEq_split :
    ∀ l : List Char, (pyPartitionEq l).2.1 = true →
      l = (pyPartitionEq l).1 ++ '=' :: (pyPartitionEq l).2.2 := by
  intro l
  induction l with
  | nil => intro h; cases h
  | cons c cs ih =>
    intro h
    by_cases hc : c = '='
    · subst hc
      simp [pyPartitionEq]
    · unfold pyPartitionEq at h ⊢
      rw [if_neg hc] at h ⊢
      have h₂ := ih h
      simpa using h₂

/-- On a stripped line that contains `=`, the remainder after the first `=`
is nonempty exactly when its own strip is nonempty: the remainder ends the
stripped line, so it cannot consist of whitespace only. -/
theorem value_strip_ne_nil (raw : List Char)
    (hf : (pyPartitionEq (pyStrip raw)).2.1 = true)
    (hv : (pyPartitionEq (pyStrip raw)).2.2 ≠ []) :
    pyStrip (pyPartitionEq (pyStrip raw)).2.2 ≠ [] := by
  have hrev : (pyPartitionEq (pyStrip raw)).2.2.reverse ≠ [] := by
    simpa using hv
  obtain ⟨c, t, hct⟩ := List.exists_cons_of_ne_nil hrev
  have hv2 : (pyPartitionEq (pyStrip raw)).2.2 = t.reverse ++ [c] := by
    rw [← List.reverse_reverse ((pyPartitionEq (pyStrip raw)).2.2), hct, List.reverse_cons]
  have hsplit := pyPartitionEq_split (pyStrip raw) hf
  have hlast : (pyStrip raw).getLast? = some c := by
    rw [hsplit, hv2,
      show (pyPartitionEq (pyStrip raw)).1 ++ '=' :: (t.reverse ++ [c])
        = ((pyPartitionEq (pyStrip raw)).1 ++ '=' :: t.reverse) ++ [c] by simp]
    exact List.getLast?_concat _
  have hcs : pyIsSpace c = false := pyStrip_getLast_not_space raw c hlast
  rw [hv2]
  exact strip_concat_ne_nil t.reverse c hcs

/-! Helper lemmas about the dict model. -/

/-- Lookup after overwriting the same key. -/
theorem dictGet_dictSet_self (d : PyDict) (k : List Char) (v : List (List Char)) :
    dictGet (dictSet d k v) k = some v := by
  induction d with
  | nil => simp [dictSet, dictGet]
  | cons p rest ih =>
    obtain ⟨a, w⟩ := p
    by_cases ha : a = k
    · simp [dictSet, dictGet, ha]
    · simp [dictSet, dictGet, ha, ih]

/-- Lookup after overwriting a different key. -/
theorem dictGet_dictSet_ne (d : PyDict) (k₂ k : List Char) (v : List (List Char))
    (h : k₂ ≠ k) : dictGet (dictSet d k₂ v) k = dictGet d k := by
  induction d with
  | nil => simp [dictSet, dictGet, h]
  | cons p rest ih =>
    obtain ⟨a, w⟩ := p
    by_cases ha : a = k₂
    · subst ha
      simp [dictSet, dictGet, h]
    · by_cases hk : a = k
      · subst hk
        simp [dictSet, dictGet, ha]
      · simp [dictSet, dictGet, ha, hk, ih]

/-- Lookup after appending to a key binding. -/
theorem dictGet_dictAppend (d : PyDict) (ck k : List Char) (x : List Char) :
    dictGet (dictAppend d ck x) k =
      if ck = k then (dictGet d k).map (fun vs => vs ++ [x]) else dictGet d k := by
  induction d with
  | nil => by_cases h : ck = k <;> simp [dictAppend, dictGet, h]
  | cons p rest ih =>
    obtain ⟨a, w⟩ := p
    have hmap : dictAppend ((a, w) :: rest) ck x
        = (if a = ck then (a, w ++ [x]) else (a, w)) :: dictAppend rest ck x := rfl
    rw [hmap]
    by_cases hak : a = ck
    · rw [if_pos hak]
      by_cases hk : a = k
      · have hck : ck = k := by rw [← hak, hk]
        simp [dictGet, hk, hck]
      · have hck : ¬ ck = k := by rw [← hak]; exact hk
        simp [dictGet, hk, hck, ih]
    · rw [if_neg hak]
      by_cases hk : a = k
      · have hck : ¬ ck = k := by intro hc; exact hak (by rw [hk, hc])
        simp [dictGet, hk, hck]
      · simp [dictGet, hk, ih]

/-! Parser equivalences. -/

/-- Under a line that contains `=`, the value list the code registers equals
the one the accumulation rule registers: testing the untrimmed remainder is
the same as testing the trimmed remainder. -/
theorem registeredValue_eq_spec (raw : List Char)
    (hf : (pyPartitionEq (pyStrip raw)).2.1 = true) :
    registeredValue raw = specRegisteredValue raw := by
  unfold registeredValue specRegisteredValue
  by_cases hv : (pyPartitionEq (pyStrip raw)).2.2 = []
  · rw [hv]
    decide
  · rw [if_pos hv, if_pos (value_strip_ne_nil raw hf hv)]

/-- The loop body of the code coincides with the amended accumulation rule
on every state and line. -/
theorem parseLine_eq_amended (st : ParseState) (raw : List Char) :
    parseLine st raw = specRuleAmendedLine st raw := by
  unfold parseLine specRuleAmendedLine
  by_cases hf : (pyPartitionEq (pyStrip raw)).2.1 = true
  · rw [if_pos hf, if_pos hf, registeredValue_eq_spec raw hf]
  · rw [if_neg hf, if_neg hf]

/-- Folding the two coinciding loop bodies gives the same state. -/
theorem foldl_parseLine_eq_amended :
    ∀ (ls : List (List Char)) (st : ParseState),
      List.foldl parseLine st ls = List.foldl specRuleAmendedLine st ls := by
  intro ls
  induction ls with
  | nil => intro st; rfl
  | cons l t ih =>
    intro st
    rw [List.foldl_cons, List.foldl_cons, parseLine_eq_amended, ih]

/-- Processing a list of lines from two states that share the current key
and agree on the binding of k keeps the agreement on k. -/
theorem foldl_parseLine_dictGet_congr (k : List Char) :
    ∀ (ls : List (List Char)) (d₁ d₂ : PyDict) (ck : Option (List Char)),
      dictGet d₁ k = dictGet d₂ k →
      dictGet (List.foldl parseLine ⟨d₁, ck⟩ ls).data k =
        dictGet (List.foldl parseLine ⟨d₂, ck⟩ ls).data k := by
  intro ls
  induction ls with
  | nil =>
    intro d₁ d₂ ck h
    simpa using h
  | cons l t ih =>
    intro d₁ d₂ ck h
    rw [List.foldl_cons, List.foldl_cons]
    unfold parseLine
    by_cases hf : (pyPartitionEq (pyStrip l)).2.1 = true
    · rw [if_pos hf, if_pos hf]
      apply ih
      by_cases hk : registeredKey l = k
      · rw [hk, dictGet_dictSet_self, dictGet_dictSet_self]
      · rw [dictGet_dictSet_ne _ _ _ _ hk, dictGet_dictSet_ne _ _ _ _ hk]
        exact h
    · rw [if_neg hf, if_neg hf]
      by_cases hck : keyTruthy ck ∧ pyStrip l ≠ []
      · rw [if_pos hck, if_pos hck]
        apply ih
        rw [dictGet_dictAppend, dictGet_dictAppend]
        by_cases hc : Option.getD ck [] = k <;> simp [hc, h]
      · rw [if_neg hck, if_neg hck]
        exact ih _ _ _ h

/-- C3 counterexample: on the manifest lines `=v` and `A` the code and the
accumulation rule as stated disagree. The line `=v` registers the empty
key; the code then drops `A` because the Python truthiness test
`if current_key` is false for the empty string, while the rule as stated
appends `A` to the active (empty) key. -/
theorem parse_manifest_specRule_cex :
    dictGet (parse_manifest [s2l "=v", s2l "A"]) (s2l "") = some [s2l "v"] ∧
    dictGet (parse_manifest_specRule [s2l "=v", s2l "A"]) (s2l "") = some [s2l "v", s2l "A"] ∧
    parse_manifest [s2l "=v", s2l "A"] ≠ parse_manifest_specRule [s2l "=v", s2l "A"] := by
  decide

/-- C3 (amended): the manifest parser implements the accumulation rule
amended so that a key that trims to the empty string counts as no active
key: for every input, the code and the amended rule produce the same
mapping. -/
theorem parse_manifest_eq_specRuleAmended (lines : List (List Char)) :
    parse_manifest lines = parse_manifest_specRuleAmended lines :=
  congrArg ParseState.data (foldl_parseLine_eq_amended lines initState)

/-- C9: when a manifest line registers the key k, everything parsed before
that line is irrelevant to the final binding of k: the value sequence built
from any earlier registration of k is discarded, not merged. -/
theorem parse_manifest_duplicate_key_overwrites (pre rest : List (List Char))
    (L k : List Char) (h : registersKey L k) :
    dictGet (parse_manifest (pre ++ L :: rest)) k =
      dictGet (parse_manifest (L :: rest)) k := by
  obtain ⟨h1, h2⟩ := h
  unfold parse_manifest
  rw [List.foldl_append, List.foldl_cons, List.foldl_cons]
  have e₁ : parseLine (List.foldl parseLine initState pre) L =
      ⟨dictSet (List.foldl parseLine initState pre).data k (registeredValue L), some k⟩ := by
    unfold parseLine
    rw [if_pos h1, h2]
  have e₂ : parseLine initState L = ⟨dictSet [] k (registeredValue L), some k⟩ := by
    unfold parseLine
    rw [if_pos h1, h2]
    rfl
  rw [e₁, e₂]
  apply foldl_parseLine_dictGet_congr
  rw [dictGet_dictSet_self, dictGet_dictSet_self]

/-- C9 witness: with an earlier registration `K=old` (plus an appended
line), a later `K=new` followed by `A` yields for K exactly the values of
the later run. -/
theorem parse_manifest_duplicate_key_overwrites_witness :
    registersKey (s2l "K=new") (s2l "K") ∧
    dictGet (parse_manifest [s2l "K=old", s2l "X", s2l "K=new", s2l "A"]) (s2l "K") =
      dictGet (parse_manifest [s2l "K=new", s2l "A"]) (s2l "K") ∧
    dictGet (parse_manifest [s2l "K=new", s2l "A"]) (s2l "K") =
      some [s2l "new", s2l "A"] :=
  ⟨⟨by decide, by decide⟩,
    parse_manifest_duplicate_key_overwrites [s2l "K=old", s2l "X"] [s2l "A"]
      (s2l "K=new") (s2l "K") ⟨by decide, by decide⟩,
    by decide⟩

/-! Lemmas about the download loop. -/

/-- One failing attempt on the last remaining iteration: the loop breaks
without sleeping and returns the destination path. -/
theorem downloadLoop_fail_last (sid dest : List Char) (o : Nat → FetchOutcome)
    (idx : Nat) (ho : o idx ≠ FetchOutcome.zipOk) :
    downloadLoop sid dest o false idx 1 =
      ([FetchEvent.checkExists, FetchEvent.httpGet sid], false, DownloadResult.value dest) := by
  cases hoo : o idx with
  | zipOk => exact absurd hoo ho
  | netError => simp [downloadLoop, attemptOnce, hoo]
  | badType => simp [downloadLoop, attemptOnce, hoo]

/-- One failing attempt with at least one more iteration to go: the loop
sleeps one second and continues with the next attempt index. -/
theorem downloadLoop_fail_step (sid dest : List Char) (o : Nat → FetchOutcome)
    (idx m : Nat) (hm : m ≠ 0) (ho : o idx ≠ FetchOutcome.zipOk) :
    downloadLoop sid dest o false idx (m + 1) =
      (FetchEvent.checkExists :: FetchEvent.httpGet sid :: FetchEvent.sleepSecond ::
          (downloadLoop sid dest o false (idx + 1) m).1,
        (downloadLoop sid dest o false (idx + 1) m).2) := by
  cases hoo : o idx with
  | zipOk => exact absurd hoo ho
  | netError => simp [downloadLoop, attemptOnce, hoo, hm]
  | badType => simp [downloadLoop, attemptOnce, hoo, hm]

/-- When every attempt fails, a loop run with budget r+1 performs exactly
r+1 attempts, sleeps r times, writes nothing, leaves the file absent and
returns the destination path. -/
theorem downloadLoop_all_fail (sid dest : List Char) (o : Nat → FetchOutcome)
    (h : ∀ i, o i ≠ FetchOutcome.zipOk) :
    ∀ (r idx : Nat),
      (downloadLoop sid dest o false idx (r + 1)).1.countP isCheckExists = r + 1 ∧
      (downloadLoop sid dest o false idx (r + 1)).1.countP isSleepEvent = r ∧
      (downloadLoop sid dest o false idx (r + 1)).1.countP isWriteEvent = 0 ∧
      (downloadLoop sid dest o false idx (r + 1)).2.1 = false ∧
      (downloadLoop sid dest o false idx (r + 1)).2.2 = DownloadResult.value dest := by
  intro r
  induction r with
  | zero =>
    intro idx
    rw [downloadLoop_fail_last sid dest o idx (h idx)]
    simp [isCheckExists, isSleepEvent, isWriteEvent, List.countP_cons]
  | succ k ih =>
    intro idx
    obtain ⟨ih1, ih2, ih3, ih4, ih5⟩ := ih (idx + 1)
    rw [downloadLoop_fail_step sid dest o idx (k + 1) (Nat.succ_ne_zero k) (h idx)]
    simp [isCheckExists, isSleepEvent, isWriteEvent, List.countP_cons,
      ih1, ih2, ih3, ih4, ih5]

/-- A loop run with at least one remaining iteration and the destination
file already present returns after the existence check alone. -/
theorem downloadLoop_skip_if_exists (sid dest : List Char) (o : Nat → FetchOutcome)
    (idx r : Nat) :
    downloadLoop sid dest o true idx (r + 1) =
      ([FetchEvent.checkExists], true, DownloadResult.value dest) := by
  simp [downloadLoop, attemptOnce]

/-- The loop result is the destination path in every branch: the except
clause catches every exception raised in the try block. -/
theorem downloadLoop_result :
    ∀ (fuel : Nat) (sid dest : List Char) (o : Nat → FetchOutcome) (fe : Bool) (idx : Nat),
      (downloadLoop sid dest o fe idx fuel).2.2 = DownloadResult.value dest := by
  intro fuel
  induction fuel with
  | zero => intro sid dest o fe idx; rfl
  | succ r ih =>
    intro sid dest o fe idx
    cases fe with
    | true => simp [downloadLoop, attemptOnce]
    | false =>
      cases ho : o idx with
      | zipOk => simp [downloadLoop, attemptOnce, ho]
      | netError =>
        by_cases hr : r = 0
        · simp [downloadLoop, attemptOnce, ho, hr]
        · rw [downloadLoop_fail_step sid dest o idx r hr (by rw [ho]; exact fun hc => nomatch hc)]
          exact ih sid dest o false (idx + 1)
      | badType =>
        by_cases hr : r = 0
        · simp [downloadLoop, attemptOnce, ho, hr]
        · rw [downloadLoop_fail_step sid dest o idx r hr (by rw [ho]; exact fun hc => nomatch hc)]
          exact ih sid dest o false (idx + 1)

/-- Two outcome oracles that agree on which attempts succeed produce the
same loop behaviour: a failing attempt contributes the same events and
state regardless of which exception was raised, and the except clause
ignores the exception value. -/
theorem downloadLoop_outcome_congr (sid dest : List Char) (o o₂ : Nat → FetchOutcome)
    (h : ∀ j, o j = FetchOutcome.zipOk ↔ o₂ j = FetchOutcome.zipOk) :
    ∀ (fuel : Nat) (fe : Bool) (idx : Nat),
      downloadLoop sid dest o fe idx fuel = downloadLoop sid dest o₂ fe idx fuel := by
  intro fuel
  induction fuel with
  | zero => intro fe idx; rfl
  | succ r ih =>
    intro fe idx
    cases fe with
    | true => simp [downloadLoop, attemptOnce]
    | false =>
      cases ho : o idx with
      | zipOk =>
        have ho₂ : o₂ idx = FetchOutcome.zipOk := (h idx).mp ho
        simp [downloadLoop, attemptOnce, ho, ho₂]
      | netError =>
        have ho₂ : o₂ idx ≠ FetchOutcome.zipOk := by
          intro hc
          rw [(h idx).mpr hc] at ho
          cases ho
        by_cases hr : r = 0
        · subst hr
          rw [downloadLoop_fail_last sid dest o idx (by rw [ho]; exact fun hc => nomatch hc),
            downloadLoop_fail_last sid dest o₂ idx ho₂]
        · rw [downloadLoop_fail_step sid dest o idx r hr (by rw [ho]; exact fun hc => nomatch hc),
            downloadLoop_fail_step sid dest o₂ idx r hr ho₂, ih false (idx + 1)]
      | badType =>
        have ho₂ : o₂ idx ≠ FetchOutcome.zipOk := by
          intro hc
          rw [(h idx).mpr hc] at ho
          cases ho
        by_cases hr : r = 0
        · subst hr
          rw [downloadLoop_fail_last sid dest o idx (by rw [ho]; exact fun hc => nomatch hc),
            downloadLoop_fail_last sid dest o₂ idx ho₂]
        · rw [downloadLoop_fail_step sid dest o idx r hr (by rw [ho]; exact fun hc => nomatch hc),
            downloadLoop_fail_step sid dest o₂ idx r hr ho₂, ih false (idx + 1)]

/-- C4: with max_retries = N and every attempt failing before the
destination file is opened for writing, download_series performs exactly
N + 1 attempts (so at most N + 1), sleeps one second between consecutive
attempts (N sleeps), never writes, and leaves no file at the destination. -/
theorem download_series_retry_bound (sid dest : List Char) (o : Nat → FetchOutcome)
    (N : Nat) (h : ∀ i, o i ≠ FetchOutcome.zipOk) :
    (download_series sid dest false o (N : Int)).1.countP isCheckExists = N + 1 ∧
    (download_series sid dest false o (N : Int)).1.countP isSleepEvent = N ∧
    (download_series sid dest false o (N : Int)).1.countP isWriteEvent = 0 ∧
    (download_series sid dest false o (N : Int)).2.1 = false := by
  have hfuel : ((N : Int) + 1).toNat = N + 1 := by omega
  unfold download_series
  rw [hfuel]
  obtain ⟨h1, h2, h3, h4, _⟩ := downloadLoop_all_fail sid dest o h N 0
  exact ⟨h1, h2, h3, h4⟩

/-- C4 witness: two retries against a permanently failing service give
three attempts, two sleeps, no write, and no file. -/
theorem download_series_retry_bound_witness :
    (download_series (s2l "1.2.3") (s2l "d.zip") false (fun _ => FetchOutcome.netError)
        ((2 : Nat) : Int)).1.countP isCheckExists = 2 + 1 ∧
    (download_series (s2l "1.2.3") (s2l "d.zip") false (fun _ => FetchOutcome.netError)
        ((2 : Nat) : Int)).1.countP isSleepEvent = 2 ∧
    (download_series (s2l "1.2.3") (s2l "d.zip") false (fun _ => FetchOutcome.netError)
        ((2 : Nat) : Int)).1.countP isWriteEvent = 0 ∧
    (download_series (s2l "1.2.3") (s2l "d.zip") false (fun _ => FetchOutcome.netError)
        ((2 : Nat) : Int)).2.1 = false :=
  download_series_retry_bound (s2l "1.2.3") (s2l "d.zip") (fun _ => FetchOutcome.netError) 2
    (fun _ hc => nomatch hc)

/-- C5: when the destination file already exists and max_retries is
nonnegative, download_series returns the destination path after the
existence check alone: no network request, no write, no sleep. In
particular a second invocation, run from the file state a successful first
invocation leaves behind, contacts the remote service zero times. -/
theorem download_series_skip_if_exists (sid dest : List Char)
    (o oFirst : Nat → FetchOutcome) (m : Int) (hm : 0 ≤ m) :
    download_series sid dest true o m =
      ([FetchEvent.checkExists], true, DownloadResult.value dest) ∧
    ((download_series sid dest false oFirst m).2.1 = true →
      download_series sid dest (download_series sid dest false oFirst m).2.1 o m =
        ([FetchEvent.checkExists], true, DownloadResult.value dest)) := by
  have key : download_series sid dest true o m =
      ([FetchEvent.checkExists], true, DownloadResult.value dest) := by
    obtain ⟨r, hr⟩ : ∃ r : Nat, (m + 1).toNat = r + 1 := ⟨m.toNat, by omega⟩
    unfold download_series
    rw [hr]
    exact downloadLoop_skip_if_exists sid dest o 0 r
  exact ⟨key, fun hfe => by rw [hfe]; exact key⟩

/-- C5 witness: after a first call that succeeds immediately, the second
call performs only the existence check and returns the path. -/
theorem download_series_skip_if_exists_witness :
    download_series (s2l "1.2.3") (s2l "d.zip") true (fun _ => FetchOutcome.netError) 0 =
      ([FetchEvent.checkExists], true, DownloadResult.value (s2l "d.zip")) ∧
    ((download_series (s2l "1.2.3") (s2l "d.zip") false (fun _ => FetchOutcome.zipOk) 0).2.1 = true →
      download_series (s2l "1.2.3") (s2l "d.zip")
          (download_series (s2l "1.2.3") (s2l "d.zip") false (fun _ => FetchOutcome.zipOk) 0).2.1
          (fun _ => FetchOutcome.netError) 0 =
        ([FetchEvent.checkExists], true, DownloadResult.value (s2l "d.zip"))) :=
  download_series_skip_if_exists (s2l "1.2.3") (s2l "d.zip")
    (fun _ => FetchOutcome.netError) (fun _ => FetchOutcome.zipOk) 0 (by decide)

/-- C7: download_series never propagates an exception: for every input it
returns the destination path; failure is observable only through the
absence of the destination file. -/
theorem download_series_never_raises (sid dest : List Char) (fe : Bool)
    (o : Nat → FetchOutcome) (m : Int) :
    (download_series sid dest fe o m).2.2 = DownloadResult.value dest :=
  downloadLoop_result ((m + 1).toNat) sid dest o fe 0

/-- C10: with a negative max_retries the while condition fails at entry,
so the loop body never runs: no existence check, no request, no write, no
sleep, and the destination path is still returned. -/
theorem download_series_negative_retries_no_attempts (sid dest : List Char) (fe : Bool)
    (o : Nat → FetchOutcome) (m : Int) (hm : m < 0) :
    download_series sid dest fe o m = ([], fe, DownloadResult.value dest) := by
  have hfuel : (m + 1).toNat = 0 := by omega
  unfold download_series
  rw [hfuel]
  rfl

/-- C10 witness: max_retries = -1 yields the empty trace and the returned
path, with the file state unchanged. -/
theorem download_series_negative_retries_no_attempts_witness :
    download_series (s2l "1.2.3") (s2l "d.zip") false (fun _ => FetchOutcome.zipOk) (-1) =
      ([], false, DownloadResult.value (s2l "d.zip")) :=
  download_series_negative_retries_no_attempts (s2l "1.2.3") (s2l "d.zip") false
    (fun _ => FetchOutcome.zipOk) (-1) (by decide)

/-- C6: an attempt whose HTTP response succeeds but whose metadata type tag
is not ZIP writes nothing on that attempt (its events are the existence
check and the request only, and the file stays absent), and the whole run
is identical to one where that attempt is a network failure instead: the
attempt counter and all later behaviour match exactly. -/
theorem download_series_bad_type_counts_as_failure (sid dest : List Char) (fe : Bool)
    (o : Nat → FetchOutcome) (m : Int) (i : Nat) (h : o i = FetchOutcome.badType) :
    attemptOnce false sid dest FetchOutcome.badType =
      ([FetchEvent.checkExists, FetchEvent.httpGet sid], false,
        AttemptResult.raised PyError.valueErrorBadType) ∧
    download_series sid dest fe o m =
      download_series sid dest fe (fun j => if j = i then FetchOutcome.netError else o j) m := by
  refine ⟨rfl, ?_⟩
  unfold download_series
  apply downloadLoop_outcome_congr
  intro j
  by_cases hj : j = i
  · subst hj
    simp [h]
  · simp [hj]

/-- C6 witness: a run whose first attempt is a bad content type behaves
exactly as a run whose first attempt is a network failure, and the bad
type attempt writes nothing. -/
theorem download_series_bad_type_counts_as_failure_witness :
    attemptOnce false (s2l "1.2.3") (s2l "d.zip") FetchOutcome.badType =
      ([FetchEvent.checkExists, FetchEvent.httpGet (s2l "1.2.3")], false,
        AttemptResult.raised PyError.valueErrorBadType) ∧
    download_series (s2l "1.2.3") (s2l "d.zip") false (fun _ => FetchOutcome.badType) 1 =
      download_series (s2l "1.2.3") (s2l "d.zip") false
        (fun j => if j = 0 then FetchOutcome.netError else FetchOutcome.badType) 1 :=
  download_series_bad_type_counts_as_failure (s2l "1.2.3") (s2l "d.zip") false
    (fun _ => FetchOutcome.badType) 1 0 rfl

/-- C1 counterexample: invoking the orchestrator on a nonexistent manifest
path raises, but only after the destination folder has been created: the
effect trace of the failing run is exactly the mkdir of the destination
folder, so filesystem state under the output root does change before the
error. -/
theorem download_from_manifest_mkdir_before_check_cex :
    (download_from_manifest false (s2l "/out") (s2l "manifest.tcia") []).1 =
      [OrchEvent.mkdirDest] ∧
    (download_from_manifest false (s2l "/out") (s2l "manifest.tcia") []).2 =
      some PyError.valueErrorBadPath ∧
    OrchEvent.mkdirDest ∈ (download_from_manifest false (s2l "/out") (s2l "manifest.tcia") []).1 := by
  decide

/-- C1 (amended): on a nonexistent or non-regular-file manifest path the
orchestrator raises after creating the destination folder but before
copying the manifest and before dispatching any download job; the
destination folder is left empty. -/
theorem download_from_manifest_invalid_path_behavior (outputBase manifestName : List Char)
    (lines : List (List Char)) (outcomes : List Char → Nat → FetchOutcome) :
    download_from_manifest false outputBase manifestName lines =
      ([OrchEvent.mkdirDest], some PyError.valueErrorBadPath) ∧
    run_from_manifest false outputBase manifestName lines outcomes =
      ([], some PyError.valueErrorBadPath) :=
  ⟨rfl, rfl⟩

/-- C2: on a manifest whose parsed mapping has no noOfrRetry key, the
orchestrator does not proceed with a retry budget of 0: the expression
int(manifest_data.get("noOfrRetry", 0)[0]) subscripts the int default and
raises TypeError, so the run aborts after the mkdir and the manifest copy
with no job dispatched. -/
theorem download_from_manifest_missing_retry_key_raises :
    download_from_manifest true (s2l "/out") (s2l "manifest.tcia")
        [s2l "ListOfSeriesToDownload=1.2.3"] =
      ([OrchEvent.mkdirDest, OrchEvent.copyManifest], some PyError.typeError) ∧
    dictGet (parse_manifest [s2l "ListOfSeriesToDownload=1.2.3"]) (s2l "noOfrRetry") = none := by
  decide

/-- Running the jobs over a folder that contains none of the pairwise
distinct job destinations adds exactly the destinations of the jobs whose
fetch leaves a file, in manifest order. -/
theorem runJobs_fresh (outcomes : List Char → Nat → FetchOutcome) (n : Int) :
    ∀ (sids : List (List Char)) (destOf : List Char → List Char)
      (existing : List (List Char)),
      (sids.map destOf).Nodup →
      (∀ s ∈ sids, destOf s ∉ existing) →
      runJobs outcomes n existing (sids.map (fun s => (s, destOf s))) =
        existing ++ (sids.filter
          (fun s => (download_series s (destOf s) false (outcomes s) n).2.1)).map destOf := by
  intro sids
  induction sids with
  | nil =>
    intro destOf existing h1 h2
    simp [runJobs]
  | cons s rest ih =>
    intro destOf existing h1 h2
    have hmem : destOf s ∉ existing := h2 s (List.mem_cons_self s rest)
    have hhead : destOf s ∉ rest.map destOf := (List.nodup_cons.mp h1).1
    have htail : (rest.map destOf).Nodup := (List.nodup_cons.mp h1).2
    have hdec : decide (destOf s ∈ existing) = false := decide_eq_false hmem
    rw [List.map_cons]
    show runJobs outcomes n
        (if (download_series s (destOf s) (decide (destOf s ∈ existing))
              (outcomes s) n).2.1 then
          (if destOf s ∈ existing then existing else existing ++ [destOf s])
        else existing)
        (rest.map (fun s => (s, destOf s))) = _
    rw [hdec]
    cases hres : (download_series s (destOf s) false (outcomes s) n).2.1 with
    | false =>
      rw [if_neg (by simp [hres]), List.filter_cons_of_neg (by simpa using hres)]
      exact ih destOf existing htail (fun t ht => h2 t (List.mem_cons_of_mem s ht))
    | true =>
      rw [if_pos (Eq.refl true), if_neg hmem,
        List.filter_cons_of_pos (by simpa using hres), List.map_cons]
      have h2x : ∀ t ∈ rest, destOf t ∉ existing ++ [destOf s] := by
        intro t ht hc
        rcases List.mem_append.mp hc with hc₂ | hc₂
        · exact h2 t (List.mem_cons_of_mem s ht) hc₂
        · exact hhead (List.mem_map.mpr ⟨t, ht, List.mem_singleton.mp hc₂⟩)
      rw [ih destOf (existing ++ [destOf s]) htail h2x]
      simp

/-- C8: on a valid manifest (the retry entry parses to n, and the manifest
copy and job destinations are pairwise distinct paths), the orchestrator
submits one job per listed series with destination
destination_folder/series_id.zip, and after the run the destination folder
contains the manifest copy plus series_id.zip exactly for the series whose
download left a file. -/
theorem download_from_manifest_layout (outputBase manifestName : List Char)
    (lines : List (List Char)) (outcomes : List Char → Nat → FetchOutcome) (n : Int)
    (hn : noOfRetriesValue (parse_manifest lines) = Except.ok n)
    (hnodup : (manifestCopyPath (destFolderPath outputBase manifestName) manifestName ::
        (listOfSeries (parse_manifest lines)).map
          (jobDestPath (destFolderPath outputBase manifestName))).Nodup) :
    (download_from_manifest true outputBase manifestName lines).1 =
      [OrchEvent.mkdirDest, OrchEvent.copyManifest] ++
        (listOfSeries (parse_manifest lines)).map
          (fun sid => OrchEvent.submitJob sid
            (jobDestPath (destFolderPath outputBase manifestName) sid) n) ∧
    run_from_manifest true outputBase manifestName lines outcomes =
      (manifestCopyPath (destFolderPath outputBase manifestName) manifestName ::
        ((listOfSeries (parse_manifest lines)).filter
          (fun sid => (download_series sid
            (jobDestPath (destFolderPath outputBase manifestName) sid) false
            (outcomes sid) n).2.1)).map
          (jobDestPath (destFolderPath outputBase manifestName)), none) := by
  have hcopy : manifestCopyPath (destFolderPath outputBase manifestName) manifestName ∉
      (listOfSeries (parse_manifest lines)).map
        (jobDestPath (destFolderPath outputBase manifestName)) :=
    (List.nodup_cons.mp hnodup).1
  have htail : ((listOfSeries (parse_manifest lines)).map
      (jobDestPath (destFolderPath outputBase manifestName))).Nodup :=
    (List.nodup_cons.mp hnodup).2
  constructor
  · simp [download_from_manifest, hn]
  · unfold run_from_manifest
    rw [if_pos (Eq.refl true)]
    simp only [hn]
    rw [runJobs_fresh outcomes n (listOfSeries (parse_manifest lines))
      (jobDestPath (destFolderPath outputBase manifestName))
      [manifestCopyPath (destFolderPath outputBase manifestName) manifestName]
      htail
      (fun t ht hc => hcopy (by
        rw [← List.mem_singleton.mp hc]
        exact List.mem_map_of_mem (jobDestPath (destFolderPath outputBase manifestName)) ht))]
    simp

/-- C8 witness: a two-series manifest with one retry, where 1.2.3 succeeds
and 4.5.6 permanently fails, submits both jobs with .zip destinations and
leaves the manifest copy plus 1.2.3.zip in the destination folder. -/
theorem download_from_manifest_layout_witness :
    (download_from_manifest true (s2l "/out") (s2l "manifest.tcia")
        [s2l "ListOfSeriesToDownload=1.2.3", s2l "4.5.6", s2l "noOfrRetry=1"]).1 =
      [OrchEvent.mkdirDest, OrchEvent.copyManifest] ++
        (listOfSeries (parse_manifest
            [s2l "ListOfSeriesToDownload=1.2.3", s2l "4.5.6", s2l "noOfrRetry=1"])).map
          (fun sid => OrchEvent.submitJob sid
            (jobDestPath (destFolderPath (s2l "/out") (s2l "manifest.tcia")) sid) 1) ∧
    run_from_manifest true (s2l "/out") (s2l "manifest.tcia")
        [s2l "ListOfSeriesToDownload=1.2.3", s2l "4.5.6", s2l "noOfrRetry=1"]
        (fun sid => if sid = s2l "1.2.3" then (fun _ => FetchOutcome.zipOk)
          else (fun _ => FetchOutcome.netError)) =
      (manifestCopyPath (destFolderPath (s2l "/out") (s2l "manifest.tcia")) (s2l "manifest.tcia") ::
        ((listOfSeries (parse_manifest
            [s2l "ListOfSeriesToDownload=1.2.3", s2l "4.5.6", s2l "noOfrRetry=1"])).filter
          (fun sid => (download_series sid
            (jobDestPath (destFolderPath (s2l "/out") (s2l "manifest.tcia")) sid) false
            ((fun sid => if sid = s2l "1.2.3" then (fun _ => FetchOutcome.zipOk)
              else (fun _ => FetchOutcome.netError)) sid) 1).2.1)).map
          (jobDestPath (destFolderPath (s2l "/out") (s2l "manifest.tcia"))), none) :=
  download_from_manifest_layout (s2l "/out") (s2l "manifest.tcia")
    [s2l "ListOfSeriesToDownload=1.2.3", s2l "4.5.6", s2l "noOfrRetry=1"]
    (fun sid => if sid = s2l "1.2.3" then (fun _ => FetchOutcome.zipOk)
      else (fun _ => FetchOutcome.netError)) 1 rfl (by decide)
